import Mathlib

/-!
Shallow embedding of the Hive frontend's core deterministic logic
(`src/hooks/useRecentTrades.ts`, `src/hooks/useFeedPosts.ts`,
`src/utils/tokens.ts`, `src/components/TipModal.tsx`) together with
theorems checking the natural-language specification against it.

Conventions of the embedding:
* TypeScript `bigint` is `Int` / `Nat`; JavaScript integral `number`
  fields (block numbers, indices, Unix timestamps) are `Nat`.
* Optional (`?:`) fields are `Option`; JS truthiness of a string
  (`!s` is true for both `undefined` and `""`) is modelled explicitly.
* The byte blob of an event payload is a `List Nat` of bytes.
* Numeric USD price fields are only carried through, never computed
  on; they are embedded as `Option Rat`.
-/

namespace Hive

/-! ### Decimal printing (embedding of JS `BigInt.prototype.toString`)

Fuel-based so that the kernel can evaluate it; fuel 200 is exact for
every natural below `10 ^ 200`, which covers all 256-bit chain values
(`2 ^ 256 < 10 ^ 78`). -/

def natDigitsAux : Nat → Nat → List Char
  | 0, _ => []
  | fuel + 1, n =>
    if n = 0 then []
    else natDigitsAux fuel (n / 10) ++ [Nat.digitChar (n % 10)]

def natToString (n : Nat) : String :=
  if n = 0 then "0" else String.mk (natDigitsAux 200 n)

def intToString (i : Int) : String :=
  if i < 0 then "-" ++ natToString i.natAbs else natToString i.natAbs

/-- JS `s.toLowerCase()`; the registry keys and chain identifiers are
ASCII, where it coincides with per-character ASCII lowercasing. -/
def toLowerAscii (s : String) : String :=
  String.mk (s.toList.map Char.toLower)

/-- JS `str.padStart(len, '0')` on the character list of `str`. -/
def padStart (s : List Char) (len : Nat) : List Char :=
  List.replicate (len - s.length) '0' ++ s

/-- JS `str.replace(/0+$/, '')`: drop the trailing run of `'0'`s. -/
def stripTrailingZeros (l : List Char) : List Char :=
  (l.reverse.dropWhile (· == '0')).reverse

/-! ### Amount Codec (`formatAmount`, useRecentTrades.ts lines 143-178) -/

/-- The digit-emitting loop of `formatAmount`: walks the padded
fraction string with state `(significantDecimals, foundNonZero)`,
appending every visited character and counting a character as
significant once a non-zero digit has been seen; stops as soon as
four significant characters have been emitted. -/
def keepSig : List Char → Nat → Bool → List Char
  | [], _, _ => []
  | c :: rest, sig, found =>
    if 4 ≤ sig then []
    else
      let found2 := found || (c != '0')
      c :: keepSig rest (if found2 then sig + 1 else sig) found2

/-- `formatAmount(amount, decimals)` from `useRecentTrades.ts`. -/
def formatAmount (amount : Int) (decimals : Nat) : String :=
  let absAmount := amount.natAbs
  if absAmount = 0 then "0"
  else
    let divisor := 10 ^ decimals
    let whole := absAmount / divisor
    let fraction := absAmount % divisor
    let fractionStr := padStart (natToString fraction).toList decimals
    let result := stripTrailingZeros (keepSig fractionStr 0 false)
    if result = [] then natToString whole
    else natToString whole ++ "." ++ String.mk result

/-- Number of leading `'0'` characters. -/
def leadingZeros : List Char → Nat
  | [] => 0
  | c :: rest => if c = '0' then leadingZeros rest + 1 else 0

/-- Spec-side rendering of the Amount Codec contract (§4.1), stated
the way the specification words it: split by `10 ^ decimals`, left-pad
the fraction to `decimals` digits, keep fraction digits until 4 have
been emitted counting from the first non-zero digit (a leading zero
run is kept but not counted), strip trailing zeros, and drop the
decimal point when the remaining fraction is empty. -/
def formatAmountSpec (amount : Int) (decimals : Nat) : String :=
  let absAmount := amount.natAbs
  if absAmount = 0 then "0"
  else
    let divisor := 10 ^ decimals
    let whole := absAmount / divisor
    let fraction := absAmount % divisor
    let fractionStr := padStart (natToString fraction).toList decimals
    let kept := fractionStr.take (leadingZeros fractionStr + 4)
    let result := stripTrailingZeros kept
    if result = [] then natToString whole
    else natToString whole ++ "." ++ String.mk result

theorem keepSig_found (l : List Char) : ∀ sig : Nat, sig ≤ 4 →
    keepSig l sig true = l.take (4 - sig) := by
  induction l with
  | nil => intro sig _; simp [keepSig]
  | cons c rest ih =>
    intro sig hsig
    by_cases h4 : 4 ≤ sig
    · have : sig = 4 := le_antisymm hsig h4
      subst this
      simp [keepSig]
    · have hstep : keepSig (c :: rest) sig true = c :: keepSig rest (sig + 1) true := by
        simp [keepSig, if_neg h4]
      rw [hstep, ih (sig + 1) (by omega),
        show 4 - sig = (4 - (sig + 1)) + 1 by omega, List.take_succ_cons]

theorem keepSig_eq_take (l : List Char) :
    keepSig l 0 false = l.take (leadingZeros l + 4) := by
  induction l with
  | nil => simp [keepSig]
  | cons c rest ih =>
    by_cases hc : c = '0'
    · subst hc
      have h1 : keepSig ('0' :: rest) 0 false = '0' :: keepSig rest 0 false := by
        simp [keepSig]
      have h2 : leadingZeros ('0' :: rest) = leadingZeros rest + 1 := by
        simp [leadingZeros]
      rw [h1, h2, ih,
        show leadingZeros rest + 1 + 4 = (leadingZeros rest + 4) + 1 by omega,
        List.take_succ_cons]
    · have hbne : (c != '0') = true := by simp [bne_iff_ne, hc]
      have h1 : keepSig (c :: rest) 0 false = c :: keepSig rest 1 true := by
        simp [keepSig, hbne]
      have h2 : leadingZeros (c :: rest) = 0 := by
        simp [leadingZeros, hc]
      rw [h1, h2, keepSig_found rest 1 (by omega),
        show (0 : Nat) + 4 = 3 + 1 by omega, List.take_succ_cons]

/-- C1: `formatAmount` realizes the Amount Codec contract of the
specification: it agrees with the spec-worded rendering
`formatAmountSpec` on every amount and decimal count, and on the
spec's concrete examples `formatAmount(1500000000000000000, 18) =
"1.5"` and `formatAmount(0, 18) = "0"`. -/
theorem C1_formatAmount_meets_spec :
    (∀ (a : Int) (d : Nat), formatAmount a d = formatAmountSpec a d) ∧
    formatAmount 1500000000000000000 18 = "1.5" ∧
    formatAmount 0 18 = "0" := by
  refine ⟨?_, by decide, by decide⟩
  intro a d
  unfold formatAmount formatAmountSpec
  simp only [keepSig_eq_take]

/-! ### Swap Event Decoder (`parseSwapEventData`, useRecentTrades.ts lines 71-97)

The event payload is a byte blob: five 32-byte big-endian ABI slots
`(int256 amount0, int256 amount1, uint160 sqrtPriceX96, uint128
liquidity, int24 tick)`.  viem's `decodeAbiParameters` reads each slot
as a big-endian natural and interprets the `int` slots as
two's-complement over the full 256-bit slot (an in-range `int24` is
sign-extended in its slot, so full-width two's-complement recovers the
same value); a blob shorter than the five slots raises, which the
source catches and turns into `null`. -/

def bytesToNatBE (l : List Nat) : Nat :=
  l.foldl (fun acc b => acc * 256 + b) 0

/-- Two's-complement reading of a 256-bit slot value. -/
def toSigned256 (w : Nat) : Int :=
  if w < 2 ^ 255 then (w : Int) else (w : Int) - 2 ^ 256

/-- The `i`-th 32-byte slot of the payload, as a big-endian natural. -/
def slotWord (data : List Nat) (i : Nat) : Nat :=
  bytesToNatBE ((data.drop (32 * i)).take 32)

structure SwapEventData where
  amount0 : Int
  amount1 : Int
  sqrtPriceX96 : Nat
  liquidity : Nat
  tick : Int
  fee : Nat
deriving Repr, DecidableEq

def parseSwapEventData (data : List Nat) : Option SwapEventData :=
  if data.length < 160 then none
  else some {
    amount0 := toSigned256 (slotWord data 0)
    amount1 := toSigned256 (slotWord data 1)
    sqrtPriceX96 := slotWord data 2
    liquidity := slotWord data 3
    tick := toSigned256 (slotWord data 4)
    fee := 0 }

/-! ### Pool/Token Resolver (static registries) -/

structure TokenInfo where
  symbol : String
  decimals : Nat
deriving Repr, DecidableEq

/-- `TOKEN_INFO` registry (useRecentTrades.ts lines 8-14 and
`src/utils/tokens.ts`): lowercased address → symbol and decimals. -/
def TOKEN_INFO : List (String × TokenInfo) := [
  ("0x7b79995e5f793a07bc00c21412e50ecae098e7f9", ⟨"WETH", 18⟩),
  ("0x1c7d4b196cb0c7b01d743fbc6116a902379c7238", ⟨"USDC", 6⟩),
  ("0x68194a729c2450ad26072b3d33adacbcef39d574", ⟨"DAI", 18⟩),
  ("0x94a9d9ac8a22534e3faca9f4e7f2e2cf85d5e4c8", ⟨"USDT", 6⟩),
  ("0x0000000000000000000000000000000000000000", ⟨"ETH", 18⟩)]

/-- JS `s.slice(0, n)`. -/
def sliceFirst (s : String) (n : Nat) : String :=
  String.mk (s.toList.take n)

/-- JS `s.slice(-n)`: the last `n` characters (the whole string when
it is shorter than `n`). -/
def sliceLast (s : String) (n : Nat) : String :=
  String.mk (s.toList.drop (s.toList.length - n))

/-- Fallback display form `${address.slice(0, 6)}...${address.slice(-4)}`. -/
def shortAddress (address : String) : String :=
  sliceFirst address 6 ++ "..." ++ sliceLast address 4

/-- `getTokenInfo` from useRecentTrades.ts lines 16-22. -/
def getTokenInfo (address : String) : TokenInfo :=
  match TOKEN_INFO.lookup (toLowerAscii address) with
  | some info => info
  | none => ⟨shortAddress address, 18⟩

/-- `getTokenSymbol` from `src/utils/tokens.ts`. -/
def getTokenSymbol (address : String) : String :=
  match TOKEN_INFO.lookup (toLowerAscii address) with
  | some info => info.symbol
  | none => shortAddress address

structure PoolCurrencies where
  currency0 : String
  currency1 : String
deriving Repr, DecidableEq

/-- `KNOWN_POOLS` registry (useRecentTrades.ts lines 99-113). -/
def KNOWN_POOLS : List (String × PoolCurrencies) := [
  ("0x3289680dd4d6c10bb19b899729cda5eef58aeff1",
    ⟨"0x7b79995e5f793a07bc00c21412e50ecae098e7f9",
     "0x1c7d4b196cb0c7b01d743fbc6116a902379c7238"⟩),
  ("0x357d9a61623f0c9209fa971ad0a6f7fbc4330ed1f0185eb3116bbbe0346ee0ca",
    ⟨"0x7b79995e5f793a07bc00c21412e50ecae098e7f9",
     "0x1c7d4b196cb0c7b01d743fbc6116a902379c7238"⟩),
  ("0xf572afd57744cf4d48a53251eca56fa30a1914091f5095af97494e9b3f66ef48",
    ⟨"0x0000000000000000000000000000000000000000",
     "0x1c7d4b196cb0c7b01d743fbc6116a902379c7238"⟩)]

/-- `parsePoolId` from useRecentTrades.ts lines 115-130: lowercase
the identifier, look it up in `KNOWN_POOLS`, return `null` on a miss
(the catch branch is unreachable). -/
def parsePoolId (poolId : String) : Option PoolCurrencies :=
  KNOWN_POOLS.lookup (toLowerAscii poolId)

/-! ### Trade Normalizer data model (useRecentTrades.ts lines 23-69) -/

structure SwapBlock where
  number : Nat
  timestamp : Option String
  hash : Option String
deriving Repr, DecidableEq

structure SwapTransaction where
  block_number : Nat
  transaction_index : Nat
  hash : Option String
  from_ : Option String
  -- the source field is named `to`, which Lean reserves
  to_ : Option String
  value : Option String
deriving Repr, DecidableEq

structure SwapLog where
  block_number : Nat
  log_index : Nat
  transaction_index : Nat
  data : List Nat
  address : String
  topics : List (Option String)
  token0_address : Option String
  token1_address : Option String
  token0_symbol : Option String
  token1_symbol : Option String
  entry_price_token0_usd : Option Rat
  entry_price_token1_usd : Option Rat
  block_timestamp : Option Nat
deriving Repr, DecidableEq

structure SwapsResponse where
  success : Bool
  swaps : List SwapLog
  blocks : List SwapBlock
  transactions : List SwapTransaction
  error : Option String
deriving Repr, DecidableEq

structure Trade where
  id : String
  tokenIn : String
  tokenOut : String
  amountIn : String
  amountOut : String
  timestamp : String
  txHash : String
  type : String
  entryPriceTokenIn : Option Rat
  entryPriceTokenOut : Option Rat
deriving Repr, DecidableEq

/-- `formatTimestamp` (useRecentTrades.ts lines 131-141), with the
ambient clock `Date.now()` made an explicit `now` parameter
(milliseconds); `Math.floor` over a positive divisor is `Int.fdiv`. -/
def formatTimestamp (now : Int) (timestamp : Int) : String :=
  let eventTime := timestamp * 1000
  let diffMs := now - eventTime
  let diffHours := Int.fdiv diffMs 3600000
  let diffDays := Int.fdiv diffMs 86400000
  if diffHours < 1 then "Just now"
  else if diffHours < 24 then
    intToString diffHours ++ " hour" ++ (if diffHours > 1 then "s" else "") ++ " ago"
  else
    intToString diffDays ++ " day" ++ (if diffDays > 1 then "s" else "") ++ " ago"

/-! ### Trade Normalizer (the `.map` body of `fetchRecentSwaps`,
useRecentTrades.ts lines 214-264) -/

/-- One log record's transformation.  Returns `none` exactly where the
source returns `null`: a missed block join, a missed transaction join,
a missing (or, by JS truthiness, empty) enriched token symbol, or a
failed payload decode. -/
def processLog (blocks : List SwapBlock) (txs : List SwapTransaction)
    (now : Int) (log : SwapLog) : Option Trade :=
  let block? := blocks.find? (fun b => b.number == log.block_number)
  let tx? := txs.find? (fun t =>
    t.block_number == log.block_number && t.transaction_index == log.transaction_index)
  match block?, tx?, log.token0_symbol, log.token1_symbol with
  | some _, some tx, some s0, some s1 =>
    if s0 == "" || s1 == "" then none
    else
      match parseSwapEventData log.data with
      | none => none
      | some eventData =>
        let receivingToken0 := decide (eventData.amount0 < 0)
        let timestampInt : Int := (log.block_timestamp.getD 0 : Nat)
        let entryPriceToken0 := log.entry_price_token0_usd
        let entryPriceToken1 := log.entry_price_token1_usd
        let token0Decimals : Nat := if s0 == "USDC" then 6 else 18
        let token1Decimals : Nat := if s1 == "USDC" then 6 else 18
        some {
          id := natToString log.block_number ++ "-" ++ natToString log.log_index
          tokenIn := if receivingToken0 then s1 else s0
          tokenOut := if receivingToken0 then s0 else s1
          amountIn := formatAmount
            (if receivingToken0 then eventData.amount1 else eventData.amount0)
            (if receivingToken0 then token1Decimals else token0Decimals)
          amountOut := formatAmount
            (if receivingToken0 then -eventData.amount0 else -eventData.amount1)
            (if receivingToken0 then token0Decimals else token1Decimals)
          timestamp := if timestampInt > 0 then formatTimestamp now timestampInt else "Unknown"
          txHash := tx.hash.getD ""
          type := if receivingToken0 then "buy" else "sell"
          entryPriceTokenIn := if receivingToken0 then entryPriceToken1 else entryPriceToken0
          entryPriceTokenOut := if receivingToken0 then entryPriceToken0 else entryPriceToken1 }
  | _, _, _, _ => none

/-- The whole transformation: map each log, drop the `null`s, reverse. -/
def transformSwaps (now : Int) (r : SwapsResponse) : List Trade :=
  ((r.swaps.map (processLog r.blocks r.transactions now)).filterMap id).reverse

/-- End-of-`fetchRecentSwaps` state of the hook (useRecentTrades.ts
lines 196-274): `trades` and `error` after one fetch settles. -/
structure RecentTradesState where
  trades : List Trade
  error : Option String
deriving Repr, DecidableEq

/-- One settled run of `fetchRecentSwaps`: a thrown error (non-OK
response, network failure) lands in the catch branch; a body with
`success: false` throws `result.error || 'Failed to fetch swap data'`
(JS `||`: an absent or empty message falls back to the default) and
lands in the same catch branch, which sets the message and replaces
`trades` with `[]`; a successful body replaces `trades` with the
transformed list.  `prev` is the hook state before the run. -/
def fetchRecentSwapsStep (prev : RecentTradesState) (now : Int)
    (res : Except String SwapsResponse) : RecentTradesState :=
  match prev, res with
  | _, .error e => { trades := [], error := some e }
  | _, .ok r =>
    if r.success then { trades := transformSwaps now r, error := none }
    else
      { trades := [],
        error := some (match r.error with
          | some s => if s == "" then "Failed to fetch swap data" else s
          | none => "Failed to fetch swap data") }

/-! ### Feed Pager (`useFeedPosts.ts`) -/

structure Post where
  id : String
  username : String
  token_in_address : String
  token_out_address : String
  amount_in : Rat
  amount_out : Rat
  tx_hash : String
  content : String
  created_at : String
  trade_timestamp : String
  exited : Bool
deriving Repr, DecidableEq

structure FetchPostsResult where
  posts : List Post
  total : Nat
deriving Repr, DecidableEq

structure FeedState where
  posts : List Post
  isLoading : Bool
  error : Option String
  total : Nat
  offset : Nat
deriving Repr, DecidableEq

/-- One settled run of `loadPosts(reset)` (useFeedPosts.ts lines
12-36) given the fetch outcome `res`: on success, replace or append
`posts`, update `offset` and `total`; on a thrown error, set the
message and leave `posts`/`offset`/`total` untouched. -/
def loadPosts (s : FeedState) (reset : Bool) (res : Except String FetchPostsResult) : FeedState :=
  match res with
  | .error e => { s with isLoading := false, error := some e }
  | .ok result =>
    if reset then
      { posts := result.posts, offset := result.posts.length,
        total := result.total, error := none, isLoading := false }
    else
      { posts := s.posts ++ result.posts, offset := s.offset + result.posts.length,
        total := result.total, error := none, isLoading := false }

/-- `hasMore` as computed in the hook's return object
(useFeedPosts.ts line 63): `posts.length < total`. -/
def hasMore (s : FeedState) : Bool :=
  s.posts.length < s.total

/-! ### Fixed-width ABI encoding (reference encoder for round-trip
statements and concrete payloads) -/

def natToBytesBE : Nat → Nat → List Nat
  | 0, _ => []
  | k + 1, n => natToBytesBE k (n / 256) ++ [n % 256]

/-- The unsigned 256-bit two's-complement representative of `x`. -/
def toNat256 (x : Int) : Nat := (x % (2 ^ 256 : Int)).toNat

/-- Big-endian ABI encoding of the five-slot Swap tuple; signed
fields are sign-extended across their 32-byte slot. -/
def encodeSwap (a0 a1 : Int) (sp liq : Nat) (tick : Int) : List Nat :=
  natToBytesBE 32 (toNat256 a0) ++ natToBytesBE 32 (toNat256 a1) ++
  natToBytesBE 32 sp ++ natToBytesBE 32 liq ++ natToBytesBE 32 (toNat256 tick)

/-! ### Helper lemmas about the Amount Codec -/

theorem formatAmount_neg (a : Int) (d : Nat) :
    formatAmount (-a) d = formatAmount a d := by
  simp only [formatAmount, Int.natAbs_neg]

theorem formatAmount_abs (a : Int) (d : Nat) :
    formatAmount |a| d = formatAmount a d := by
  simp only [formatAmount, Int.natAbs_abs]

/-! ### A concrete well-formed fetch scenario

One enriched log whose pool paid out `10 ^ 12` wei of token0 (WETH)
against `10 ^ 12` units of token1 (USDT), with its matching block and
transaction. -/

def sampleBlock : SwapBlock := ⟨1, none, none⟩

def sampleTx : SwapTransaction := ⟨1, 0, some "0xabc", none, none, none⟩

def sampleLog : SwapLog :=
  { block_number := 1
    log_index := 0
    transaction_index := 0
    data := encodeSwap (-(10 ^ 12)) (10 ^ 12) 0 0 0
    address := "0x3289680dd4d6c10bb19b899729cda5eef58aeff1"
    topics := []
    token0_address := some "0x7b79995e5f793a07bc00c21412e50ecae098e7f9"
    token1_address := some "0x94a9d9ac8a22534e3faca9f4e7f2e2cf85d5e4c8"
    token0_symbol := some "WETH"
    token1_symbol := some "USDT"
    entry_price_token0_usd := none
    entry_price_token1_usd := none
    block_timestamp := none }

def sampleEvent : SwapEventData := ⟨-(10 ^ 12), 10 ^ 12, 0, 0, 0, 0⟩

def sampleTrade : Trade :=
  ⟨"1-0", "USDT", "WETH", "0.000001", "0.000001", "Unknown", "0xabc", "buy", none, none⟩

/-- C2: for every log the normalizer emits as a `Trade`, a negative
decoded `amount0` yields `type = "buy"` with `tokenOut` the token0
symbol, `tokenIn` the token1 symbol, `amountOut` the formatted
magnitude of `amount0` and `amountIn` the formatted magnitude of
`amount1`; otherwise `type = "sell"` with the sides swapped. -/
theorem C2_buy_sell_orientation
    (blocks : List SwapBlock) (txs : List SwapTransaction) (now : Int)
    (log : SwapLog) (t : Trade) (ed : SwapEventData) (s0 s1 : String)
    (hemit : processLog blocks txs now log = some t)
    (hdec : parseSwapEventData log.data = some ed)
    (hs0 : log.token0_symbol = some s0)
    (hs1 : log.token1_symbol = some s1) :
    (ed.amount0 < 0 →
      t.type = "buy" ∧ t.tokenOut = s0 ∧ t.tokenIn = s1 ∧
      t.amountOut = formatAmount |ed.amount0| (if s0 == "USDC" then 6 else 18) ∧
      t.amountIn = formatAmount |ed.amount1| (if s1 == "USDC" then 6 else 18)) ∧
    (0 ≤ ed.amount0 →
      t.type = "sell" ∧ t.tokenOut = s1 ∧ t.tokenIn = s0 ∧
      t.amountOut = formatAmount |ed.amount1| (if s1 == "USDC" then 6 else 18) ∧
      t.amountIn = formatAmount |ed.amount0| (if s0 == "USDC" then 6 else 18)) := by
  cases hfb : blocks.find? (fun b => b.number == log.block_number) with
  | none => simp [processLog, hfb] at hemit
  | some blk =>
  cases hft : txs.find? (fun tr =>
      tr.block_number == log.block_number && tr.transaction_index == log.transaction_index) with
  | none => simp [processLog, hfb, hft] at hemit
  | some tx =>
    simp only [processLog, hfb, hft, hs0, hs1, hdec] at hemit
    by_cases hempty : (s0 == "" || s1 == "") = true
    · rw [if_pos hempty] at hemit
      exact absurd hemit (by simp)
    · rw [if_neg hempty] at hemit
      rw [Option.some.injEq] at hemit
      subst hemit
      refine ⟨fun h0 => ?_, fun h0 => ?_⟩
      · have hd : decide (ed.amount0 < 0) = true := decide_eq_true h0
        simp [hd, formatAmount_abs, formatAmount_neg]
      · have hd : decide (ed.amount0 < 0) = false := decide_eq_false (not_lt.mpr h0)
        simp [hd, formatAmount_abs, formatAmount_neg]

set_option maxRecDepth 40000 in
theorem C2_buy_sell_orientation_witness :
    processLog [sampleBlock] [sampleTx] 0 sampleLog = some sampleTrade ∧
    sampleTrade.type = "buy" ∧ sampleTrade.tokenOut = "WETH" ∧
    sampleTrade.tokenIn = "USDT" := by
  have h := C2_buy_sell_orientation [sampleBlock] [sampleTx] 0 sampleLog sampleTrade
    sampleEvent "WETH" "USDT" (by decide) (by decide) (by decide) (by decide)
  exact ⟨by decide, (h.1 (by decide)).1, (h.1 (by decide)).2.1, (h.1 (by decide)).2.2.1⟩

set_option maxRecDepth 100000 in
/-- C3 as stated fails on the code: the normalizer picks each side's
decimals with `symbol === 'USDC' ? 6 : 18` and never consults the
token registry, so a USDT leg is formatted with 18 decimals although
the registry records 6 for USDT.  Here the emitted trade's `amountIn`
for a `10 ^ 12`-unit USDT leg is `"0.000001"`, while formatting with
the registry decimals of USDT's address would give `"1000000"`. -/
theorem C3_registry_decimals_counterexample :
    (processLog [sampleBlock] [sampleTx] 0 sampleLog).map Trade.amountIn = some "0.000001" ∧
    sampleLog.token1_symbol = some "USDT" ∧
    (getTokenInfo "0x94a9d9ac8a22534e3faca9f4e7f2e2cf85d5e4c8").decimals = 6 ∧
    formatAmount (10 ^ 12) 6 = "1000000" ∧
    ("0.000001" : String) ≠ "1000000" := by
  refine ⟨by decide, by decide, by decide, by decide, by decide⟩

/-- C3 amended: for every record the normalizer emits, the decimals
used to format a leg are 6 when that side's backend-enriched symbol is
`"USDC"` and 18 otherwise; the static token registry is not consulted
(this agrees with the registry for USDC, WETH, DAI and ETH but not for
USDT, which the registry records at 6). -/
theorem C3_decimals_by_symbol
    (blocks : List SwapBlock) (txs : List SwapTransaction) (now : Int)
    (log : SwapLog) (t : Trade) (ed : SwapEventData) (s0 s1 : String)
    (hemit : processLog blocks txs now log = some t)
    (hdec : parseSwapEventData log.data = some ed)
    (hs0 : log.token0_symbol = some s0)
    (hs1 : log.token1_symbol = some s1) :
    (ed.amount0 < 0 →
      t.amountIn = formatAmount ed.amount1 (if s1 == "USDC" then 6 else 18) ∧
      t.amountOut = formatAmount ed.amount0 (if s0 == "USDC" then 6 else 18)) ∧
    (0 ≤ ed.amount0 →
      t.amountIn = formatAmount ed.amount0 (if s0 == "USDC" then 6 else 18) ∧
      t.amountOut = formatAmount ed.amount1 (if s1 == "USDC" then 6 else 18)) := by
  cases hfb : blocks.find? (fun b => b.number == log.block_number) with
  | none => simp [processLog, hfb] at hemit
  | some blk =>
  cases hft : txs.find? (fun tr =>
      tr.block_number == log.block_number && tr.transaction_index == log.transaction_index) with
  | none => simp [processLog, hfb, hft] at hemit
  | some tx =>
    simp only [processLog, hfb, hft, hs0, hs1, hdec] at hemit
    by_cases hempty : (s0 == "" || s1 == "") = true
    · rw [if_pos hempty] at hemit
      exact absurd hemit (by simp)
    · rw [if_neg hempty] at hemit
      rw [Option.some.injEq] at hemit
      subst hemit
      refine ⟨fun h0 => ?_, fun h0 => ?_⟩
      · have hd : decide (ed.amount0 < 0) = true := decide_eq_true h0
        simp [hd, formatAmount_neg]
      · have hd : decide (ed.amount0 < 0) = false := decide_eq_false (not_lt.mpr h0)
        simp [hd, formatAmount_neg]

set_option maxRecDepth 40000 in
theorem C3_decimals_by_symbol_witness :
    sampleTrade.amountIn =
      formatAmount sampleEvent.amount1 (if ("USDT" : String) == "USDC" then 6 else 18) :=
  ((C3_decimals_by_symbol [sampleBlock] [sampleTx] 0 sampleLog sampleTrade
    sampleEvent "WETH" "USDT" (by decide) (by decide) (by decide) (by decide)).1
    (by decide)).1

/-! ### C4: which logs produce a Trade -/

/-- The emission condition, stated independently of `processLog`: the
block join hits, the transaction join hits, both enriched symbols are
present and non-empty (JS truthiness: `!log.token0_symbol` drops both
a missing and an empty symbol), and the payload decodes. -/
def goodLog (blocks : List SwapBlock) (txs : List SwapTransaction) (log : SwapLog) : Bool :=
  (blocks.any (fun b => b.number == log.block_number)) &&
  (txs.any (fun t =>
    t.block_number == log.block_number && t.transaction_index == log.transaction_index)) &&
  (match log.token0_symbol with | some s => s != "" | none => false) &&
  (match log.token1_symbol with | some s => s != "" | none => false) &&
  (parseSwapEventData log.data).isSome

theorem find?_isSome_eq_any {α : Type} (l : List α) (p : α → Bool) :
    (l.find? p).isSome = l.any p := by
  rw [Bool.eq_iff_iff, List.find?_isSome, List.any_eq_true]

theorem processLog_isSome (blocks : List SwapBlock) (txs : List SwapTransaction)
    (now : Int) (log : SwapLog) :
    (processLog blocks txs now log).isSome = goodLog blocks txs log := by
  have hb := find?_isSome_eq_any blocks (fun b => b.number == log.block_number)
  have ht := find?_isSome_eq_any txs (fun t =>
    t.block_number == log.block_number && t.transaction_index == log.transaction_index)
  unfold goodLog
  rw [← hb, ← ht]
  cases hfb : blocks.find? (fun b => b.number == log.block_number) with
  | none => simp [processLog, hfb]
  | some blk =>
  cases hft : txs.find? (fun tr =>
      tr.block_number == log.block_number && tr.transaction_index == log.transaction_index) with
  | none => simp [processLog, hfb, hft]
  | some tx =>
  cases hs0 : log.token0_symbol with
  | none => simp [processLog, hfb, hft, hs0]
  | some s0 =>
  cases hs1 : log.token1_symbol with
  | none => simp [processLog, hfb, hft, hs0, hs1]
  | some s1 =>
    by_cases hempty : (s0 == "" || s1 == "") = true
    · rcases Bool.or_eq_true_iff.mp hempty with h | h <;>
        simp [processLog, hfb, hft, hs0, hs1, eq_of_beq h]
    · rw [Bool.or_eq_true_iff] at hempty
      push_neg at hempty
      obtain ⟨h0, h1⟩ := hempty
      cases hdec : parseSwapEventData log.data with
      | none =>
        simp [processLog, hfb, hft, hs0, hs1, hdec, Bool.or_eq_true_iff, h0, h1]
      | some ed =>
        simp [processLog, hfb, hft, hs0, hs1, hdec, Bool.or_eq_true_iff, h0, h1,
          bne_iff_ne, ne_eq]
        exact ⟨fun hc => h0 (by simp [hc]), fun hc => h1 (by simp [hc])⟩

theorem length_filterMap_id_map {α β : Type} (g : α → Option β) (l : List α) :
    ((l.map g).filterMap id).length = l.countP (fun a => (g a).isSome) := by
  induction l with
  | nil => rfl
  | cons a l ih =>
    simp only [List.map_cons, List.filterMap_cons, List.countP_cons]
    cases h : g a <;> simpa [h] using ih

/-- C4: the normalizer's output contains exactly one `Trade` per log
meeting the emission condition `goodLog` (joined block, joined
transaction, truthy enriched symbols, decodable payload) — the output
length counts exactly the good logs, a log is emitted iff it is good,
and every output entry is the image of some input log; no fragmentary
or placeholder entries occur. -/
theorem C4_drops_malformed (now : Int) (r : SwapsResponse) :
    (transformSwaps now r).length = r.swaps.countP (goodLog r.blocks r.transactions) ∧
    (∀ log, (processLog r.blocks r.transactions now log).isSome
      = goodLog r.blocks r.transactions log) ∧
    (∀ t ∈ transformSwaps now r, ∃ log ∈ r.swaps,
      processLog r.blocks r.transactions now log = some t) := by
  refine ⟨?_, fun log => processLog_isSome r.blocks r.transactions now log, fun t ht => ?_⟩
  · unfold transformSwaps
    rw [List.length_reverse, length_filterMap_id_map]
    exact List.countP_congr (fun log _ => by rw [processLog_isSome])
  · unfold transformSwaps at ht
    obtain ⟨x, hx, hxt⟩ := List.mem_filterMap.mp (List.mem_reverse.mp ht)
    obtain ⟨log, hlog, hglog⟩ := List.mem_map.mp hx
    exact ⟨log, hlog, by rw [hglog]; exact hxt⟩

def sampleBadLog : SwapLog := { sampleLog with token1_symbol := some "" }

def sampleResponse : SwapsResponse :=
  ⟨true, [sampleLog, sampleBadLog], [sampleBlock], [sampleTx], none⟩

set_option maxRecDepth 100000 in
theorem C4_drops_malformed_witness :
    (transformSwaps 0 sampleResponse).length =
      sampleResponse.swaps.countP (goodLog sampleResponse.blocks sampleResponse.transactions) ∧
    (∃ log ∈ sampleResponse.swaps,
      processLog sampleResponse.blocks sampleResponse.transactions 0 log = some sampleTrade) :=
  ⟨(C4_drops_malformed 0 sampleResponse).1,
   (C4_drops_malformed 0 sampleResponse).2.2 sampleTrade (by decide)⟩

/-- C5: in the feed pager, `hasMore` is true iff `posts.length <
total`; a successful reset load replaces `posts` with exactly the
returned page and sets `offset` to that page's length; a successful
non-reset load appends the page and advances `offset` by the page's
length (`total` comes from the response in both cases). -/
theorem C5_feed_pager (s : FeedState) (page : FetchPostsResult) :
    (hasMore s = true ↔ s.posts.length < s.total) ∧
    (loadPosts s true (.ok page)).posts = page.posts ∧
    (loadPosts s true (.ok page)).offset = page.posts.length ∧
    (loadPosts s true (.ok page)).total = page.total ∧
    (loadPosts s false (.ok page)).posts = s.posts ++ page.posts ∧
    (loadPosts s false (.ok page)).offset = s.offset + page.posts.length ∧
    (loadPosts s false (.ok page)).total = page.total := by
  refine ⟨?_, rfl, rfl, rfl, rfl, rfl, rfl⟩
  simp [hasMore]

theorem lookup_mem {α β : Type} [BEq α] [LawfulBEq α] (l : List (α × β)) (a : α) (b : β)
    (h : l.lookup a = some b) : (a, b) ∈ l := by
  induction l with
  | nil => simp [List.lookup] at h
  | cons kv l ih =>
    rw [List.lookup_cons] at h
    split at h
    · next heq => simp at heq; subst heq; cases kv; simp_all
    · exact List.mem_cons_of_mem _ (ih h)

/-- C7: `parsePoolId` resolves pools only through the static
registry: an identifier whose lowercased form misses `KNOWN_POOLS`
yields `none`, any returned pair is literally a registry entry (never
fabricated), and a registered identifier yields that entry's
`currency0`/`currency1`. -/
theorem C7_parsePoolId_strict (pid : String) :
    (KNOWN_POOLS.lookup (toLowerAscii pid) = none → parsePoolId pid = none) ∧
    (∀ pr, parsePoolId pid = some pr → (toLowerAscii pid, pr) ∈ KNOWN_POOLS) ∧
    (∀ pr, KNOWN_POOLS.lookup (toLowerAscii pid) = some pr → parsePoolId pid = some pr) :=
  ⟨fun h => h, fun _ h => lookup_mem _ _ _ h, fun _ h => h⟩

set_option maxRecDepth 40000 in
theorem C7_parsePoolId_strict_witness :
    parsePoolId "0x3289680DD4D6C10BB19B899729CDA5EEF58AEFF1" =
      some ⟨"0x7b79995e5f793a07bc00c21412e50ecae098e7f9",
            "0x1c7d4b196cb0c7b01d743fbc6116a902379c7238"⟩ ∧
    parsePoolId "0xdeadbeef" = none :=
  ⟨(C7_parsePoolId_strict "0x3289680DD4D6C10BB19B899729CDA5EEF58AEFF1").2.2 _ (by decide),
   (C7_parsePoolId_strict "0xdeadbeef").1 (by decide)⟩

set_option maxRecDepth 40000 in
/-- C8 fails as stated: for two unregistered addresses that differ
only in letter case, the fallback display form keeps the original
casing, so the results differ even though the addresses are
case-variants of each other. -/
theorem C8_case_counterexample :
    toLowerAscii "0XDEADBEEF00000000000000000000000000000001" =
      toLowerAscii "0xdeadbeef00000000000000000000000000000001" ∧
    getTokenSymbol "0XDEADBEEF00000000000000000000000000000001" = "0XDEAD...0001" ∧
    getTokenSymbol "0xdeadbeef00000000000000000000000000000001" = "0xdead...0001" ∧
    ("0XDEAD...0001" : String) ≠ "0xdead...0001" := by
  refine ⟨by decide, by decide, by decide, by decide⟩

/-- C8 amended: `symbolFor` (`getTokenSymbol`) never throws (it is a
total function); for addresses whose lowercased form is registered,
case-variants resolve to the same registry symbol; for unregistered
addresses it returns the first 6 characters, `"..."`, then the last 4
characters of the address as written — so case-variants of an
unregistered address produce display forms in their own casing. -/
theorem C8_symbol_resolution (a b : String)
    (hcase : toLowerAscii a = toLowerAscii b) :
    (∀ info, TOKEN_INFO.lookup (toLowerAscii a) = some info →
      getTokenSymbol a = info.symbol ∧ getTokenSymbol b = info.symbol) ∧
    (TOKEN_INFO.lookup (toLowerAscii a) = none →
      getTokenSymbol a = sliceFirst a 6 ++ "..." ++ sliceLast a 4 ∧
      getTokenSymbol b = sliceFirst b 6 ++ "..." ++ sliceLast b 4) := by
  constructor
  · intro info h
    constructor
    · simp [getTokenSymbol, h]
    · simp [getTokenSymbol, ← hcase, h]
  · intro h
    constructor
    · simp [getTokenSymbol, shortAddress, h]
    · simp [getTokenSymbol, shortAddress, ← hcase, h]

set_option maxRecDepth 40000 in
theorem C8_symbol_resolution_witness :
    getTokenSymbol "0X7B79995E5F793A07BC00C21412E50ECAE098E7F9" =
      (⟨"WETH", 18⟩ : TokenInfo).symbol ∧
    getTokenSymbol "0x7b79995e5f793a07bc00c21412e50ecae098e7f9" =
      (⟨"WETH", 18⟩ : TokenInfo).symbol :=
  (C8_symbol_resolution "0X7B79995E5F793A07BC00C21412E50ECAE098E7F9"
    "0x7b79995e5f793a07bc00c21412e50ecae098e7f9" (by decide)).1 ⟨"WETH", 18⟩ (by decide)

/-- C10: when the swaps fetch fails — a thrown error (non-OK HTTP
response or network failure) or a body with `success: false` — the
hook ends with the error message set and `trades` replaced by `[]`,
discarding whatever was displayed before; the feed pager instead
keeps its previous `posts` when its fetch throws. -/
theorem C10_error_discards_trades (prev : RecentTradesState) (now : Int) :
    (∀ e, fetchRecentSwapsStep prev now (.error e) = ⟨[], some e⟩) ∧
    (∀ r : SwapsResponse, r.success = false →
      (fetchRecentSwapsStep prev now (.ok r)).trades = [] ∧
      (fetchRecentSwapsStep prev now (.ok r)).error.isSome = true) ∧
    (∀ (s : FeedState) (reset : Bool) (e : String),
      (loadPosts s reset (.error e)).posts = s.posts ∧
      (loadPosts s reset (.error e)).error = some e) := by
  refine ⟨fun e => rfl, fun r hr => ?_, fun s reset e => ⟨rfl, rfl⟩⟩
  constructor
  · simp [fetchRecentSwapsStep, hr]
  · simp [fetchRecentSwapsStep, hr]

set_option maxRecDepth 40000 in
theorem C10_error_discards_trades_witness :
    fetchRecentSwapsStep ⟨[sampleTrade], none⟩ 0 (.error "API error: 500") =
      ⟨[], some "API error: 500"⟩ ∧
    (fetchRecentSwapsStep ⟨[sampleTrade], none⟩ 0
      (.ok ⟨false, [], [], [], none⟩)).trades = [] :=
  ⟨(C10_error_discards_trades ⟨[sampleTrade], none⟩ 0).1 "API error: 500",
   ((C10_error_discards_trades ⟨[sampleTrade], none⟩ 0).2.1 ⟨false, [], [], [], none⟩ rfl).1⟩

/-! ### C9: decode/encode round trip -/

theorem natToBytesBE_length (k : Nat) : ∀ n, (natToBytesBE k n).length = k := by
  induction k with
  | zero => intro n; rfl
  | succ k ih => intro n; simp [natToBytesBE, ih]

theorem bytesToNatBE_natToBytesBE (k : Nat) :
    ∀ n, bytesToNatBE (natToBytesBE k n) = n % 256 ^ k := by
  induction k with
  | zero => intro n; simp [natToBytesBE, bytesToNatBE, Nat.mod_one]
  | succ k ih =>
    intro n
    unfold bytesToNatBE at ih ⊢
    simp only [natToBytesBE, List.foldl_append, List.foldl_cons, List.foldl_nil]
    rw [ih]
    rw [Nat.pow_succ, Nat.mul_comm (256 ^ k) 256, Nat.mod_mul]
    rw [Nat.mul_comm (n / 256 % 256 ^ k) 256,
      Nat.add_comm (256 * (n / 256 % 256 ^ k)) (n % 256)]

set_option maxRecDepth 10000 in
theorem toNat256_lt (x : Int) : toNat256 x < 2 ^ 256 := by
  unfold toNat256
  have h1 := Int.emod_nonneg x (show ((2 : Int) ^ 256) ≠ 0 by norm_num)
  have h2 := Int.emod_lt_of_pos x (show (0 : Int) < 2 ^ 256 by norm_num)
  omega

set_option maxRecDepth 10000 in
theorem toSigned256_toNat256 (x : Int) (h1 : -(2 ^ 255) ≤ x) (h2 : x < 2 ^ 255) :
    toSigned256 (toNat256 x) = x := by
  unfold toSigned256 toNat256
  have hm1 := Int.emod_nonneg x (show ((2 : Int) ^ 256) ≠ 0 by norm_num)
  have hm2 := Int.emod_lt_of_pos x (show (0 : Int) < 2 ^ 256 by norm_num)
  by_cases hx : 0 ≤ x
  · rw [if_pos (by omega)]
    omega
  · rw [if_neg (by omega)]
    omega

theorem slotWords_five (A B C D E : List Nat)
    (hA : A.length = 32) (hB : B.length = 32) (hC : C.length = 32)
    (hD : D.length = 32) (hE : E.length = 32) :
    slotWord (A ++ (B ++ (C ++ (D ++ E)))) 0 = bytesToNatBE A ∧
    slotWord (A ++ (B ++ (C ++ (D ++ E)))) 1 = bytesToNatBE B ∧
    slotWord (A ++ (B ++ (C ++ (D ++ E)))) 2 = bytesToNatBE C ∧
    slotWord (A ++ (B ++ (C ++ (D ++ E)))) 3 = bytesToNatBE D ∧
    slotWord (A ++ (B ++ (C ++ (D ++ E)))) 4 = bytesToNatBE E := by
  have d1 : (A ++ (B ++ (C ++ (D ++ E)))).drop 32 = B ++ (C ++ (D ++ E)) :=
    List.drop_left' hA
  have d2 : (A ++ (B ++ (C ++ (D ++ E)))).drop 64 = C ++ (D ++ E) := by
    rw [show (64 : Nat) = 32 + 32 from rfl, ← List.drop_drop, d1]
    exact List.drop_left' hB
  have d3 : (A ++ (B ++ (C ++ (D ++ E)))).drop 96 = D ++ E := by
    rw [show (96 : Nat) = 64 + 32 from rfl, ← List.drop_drop, d2]
    exact List.drop_left' hC
  have d4 : (A ++ (B ++ (C ++ (D ++ E)))).drop 128 = E := by
    rw [show (128 : Nat) = 96 + 32 from rfl, ← List.drop_drop, d3]
    exact List.drop_left' hD
  refine ⟨?_, ?_, ?_, ?_, ?_⟩
  · show bytesToNatBE (((A ++ (B ++ (C ++ (D ++ E)))).drop (32 * 0)).take 32) = _
    norm_num
    rw [List.take_left' hA]
  · show bytesToNatBE (((A ++ (B ++ (C ++ (D ++ E)))).drop (32 * 1)).take 32) = _
    norm_num
    rw [d1, List.take_left' hB]
  · show bytesToNatBE (((A ++ (B ++ (C ++ (D ++ E)))).drop (32 * 2)).take 32) = _
    norm_num
    rw [d2, List.take_left' hC]
  · show bytesToNatBE (((A ++ (B ++ (C ++ (D ++ E)))).drop (32 * 3)).take 32) = _
    norm_num
    rw [d3, List.take_left' hD]
  · show bytesToNatBE (((A ++ (B ++ (C ++ (D ++ E)))).drop (32 * 4)).take 32) = _
    norm_num
    rw [d4, (List.take_eq_self_iff E).mpr (by omega)]

set_option maxRecDepth 10000 in
/-- C9: decoding the fixed-width big-endian two's-complement ABI
encoding of any in-range tuple `(amount0 : int256, amount1 : int256,
sqrtPriceX96 : uint160, liquidity : uint128, tick : int24)` with the
swap-event decoder recovers every field's sign and magnitude exactly
(with `fee` pinned to 0, as the decoder sets it). -/
theorem C9_decodeSwap_roundtrip (a0 a1 : Int) (sp liq : Nat) (tick : Int)
    (ha0l : -(2 ^ 255) ≤ a0) (ha0u : a0 < 2 ^ 255)
    (ha1l : -(2 ^ 255) ≤ a1) (ha1u : a1 < 2 ^ 255)
    (hsp : sp < 2 ^ 160) (hliq : liq < 2 ^ 128)
    (htl : -(2 ^ 23) ≤ tick) (htu : tick < 2 ^ 23) :
    parseSwapEventData (encodeSwap a0 a1 sp liq tick) =
      some ⟨a0, a1, sp, liq, tick, 0⟩ := by
  have h832 : (256 : Nat) ^ 32 = 2 ^ 256 := by norm_num
  have hw := slotWords_five
    (natToBytesBE 32 (toNat256 a0)) (natToBytesBE 32 (toNat256 a1))
    (natToBytesBE 32 sp) (natToBytesBE 32 liq) (natToBytesBE 32 (toNat256 tick))
    (natToBytesBE_length 32 _) (natToBytesBE_length 32 _) (natToBytesBE_length 32 _)
    (natToBytesBE_length 32 _) (natToBytesBE_length 32 _)
  have hassoc : encodeSwap a0 a1 sp liq tick =
      natToBytesBE 32 (toNat256 a0) ++ (natToBytesBE 32 (toNat256 a1) ++
        (natToBytesBE 32 sp ++ (natToBytesBE 32 liq ++ natToBytesBE 32 (toNat256 tick)))) := by
    unfold encodeSwap
    simp only [List.append_assoc]
  have hlen : (encodeSwap a0 a1 sp liq tick).length = 160 := by
    rw [hassoc]
    simp [natToBytesBE_length]
  unfold parseSwapEventData
  rw [hlen]
  rw [if_neg (by omega)]
  have e0 : slotWord (encodeSwap a0 a1 sp liq tick) 0 = toNat256 a0 := by
    rw [hassoc, hw.1,
      bytesToNatBE_natToBytesBE, h832, Nat.mod_eq_of_lt (toNat256_lt a0)]
  have e1 : slotWord (encodeSwap a0 a1 sp liq tick) 1 = toNat256 a1 := by
    rw [hassoc, hw.2.1,
      bytesToNatBE_natToBytesBE, h832, Nat.mod_eq_of_lt (toNat256_lt a1)]
  have e2 : slotWord (encodeSwap a0 a1 sp liq tick) 2 = sp := by
    rw [hassoc, hw.2.2.1,
      bytesToNatBE_natToBytesBE, h832, Nat.mod_eq_of_lt (by calc
        sp < 2 ^ 160 := hsp
        _ ≤ 2 ^ 256 := by norm_num)]
  have e3 : slotWord (encodeSwap a0 a1 sp liq tick) 3 = liq := by
    rw [hassoc, hw.2.2.2.1,
      bytesToNatBE_natToBytesBE, h832, Nat.mod_eq_of_lt (by calc
        liq < 2 ^ 128 := hliq
        _ ≤ 2 ^ 256 := by norm_num)]
  have e4 : slotWord (encodeSwap a0 a1 sp liq tick) 4 = toNat256 tick := by
    rw [hassoc, hw.2.2.2.2,
      bytesToNatBE_natToBytesBE, h832, Nat.mod_eq_of_lt (toNat256_lt tick)]
  rw [e0, e1, e2, e3, e4,
    toSigned256_toNat256 a0 ha0l ha0u,
    toSigned256_toNat256 a1 ha1l ha1u,
    toSigned256_toNat256 tick
      (le_trans (by norm_num) htl) (lt_trans htu (by norm_num))]

set_option maxRecDepth 100000 in
theorem C9_decodeSwap_roundtrip_witness :
    parseSwapEventData (encodeSwap (-1500000000000000000) 3750000000 0 0 0) =
      some ⟨-1500000000000000000, 3750000000, 0, 0, 0, 0⟩ ∧
    ((-1500000000000000000 : Int) < 0 ∧ (0 : Int) ≤ 3750000000) :=
  ⟨C9_decodeSwap_roundtrip (-1500000000000000000) 3750000000 0 0 0
    (by decide) (by decide) (by decide) (by decide)
    (by decide) (by decide) (by decide) (by decide),
   by decide⟩

/-! ### C6: Tip Flow (`TipModal.tsx`)

One mounted `TipModal` instance for a fixed post and wallet.
`PostCard` renders `<TipModal>` unconditionally and only toggles its
`isOpen` prop, so closing the modal renders `null` but keeps the
hooks mounted: the receipt watcher keeps running and the record-tip
`useEffect` still fires on confirmation.  The effect's dependency
array is `[isSuccess, tipRecorded, hash, address, post.id]`; with the
post and wallet fixed, a new firing is scheduled exactly when
`isSuccess`, `tipRecorded` or `hash` changes (`effectPending`).  The
effect's body calls `api.createTip(post.id, {tx_hash: hash})` when
`isSuccess && !tipRecorded`, latching `tipRecorded` on success and
leaving it false when the call throws. -/

structure TipCall where
  postId : String
  txHash : String
deriving Repr, DecidableEq

structure TipFlowState where
  isOpen : Bool
  hash : Option String
  isSuccess : Bool
  tipRecorded : Bool
  effectPending : Bool
  calls : List TipCall
deriving Repr, DecidableEq

/-- The freshly opened modal: no transaction, nothing recorded. -/
def tipInit : TipFlowState := ⟨true, none, false, false, false, []⟩

/-- Events of one modal instance.  `sendTip` needs the send button,
which is rendered only while the modal is open and `hash` is unset;
`close` is always available while open (the overlay's `onClick`
ignores the pending flags); `confirm` is the outside receipt watcher
reporting inclusion; `effectOk`/`effectFail`/`effectNoop` are one
firing of the record-tip effect, consuming a pending dependency
change (`effectOk` = `createTip` resolved, `effectFail` = it threw,
`effectNoop` = the `isSuccess && !tipRecorded` guard was false). -/
inductive TipStep (postId : String) : TipFlowState → TipFlowState → Prop
  | sendTip (s : TipFlowState) (h : String) :
      s.isOpen = true → s.hash = none →
      TipStep postId s { s with hash := some h, effectPending := true }
  | confirm (s : TipFlowState) (h : String) :
      s.hash = some h → s.isSuccess = false →
      TipStep postId s { s with isSuccess := true, effectPending := true }
  | close (s : TipFlowState) :
      s.isOpen = true → TipStep postId s { s with isOpen := false }
  | reopen (s : TipFlowState) :
      s.isOpen = false → TipStep postId s { s with isOpen := true }
  | effectOk (s : TipFlowState) (h : String) :
      s.effectPending = true → s.isSuccess = true → s.tipRecorded = false →
      s.hash = some h →
      TipStep postId s
        { s with calls := s.calls ++ [⟨postId, h⟩], tipRecorded := true, effectPending := true }
  | effectFail (s : TipFlowState) (h : String) :
      s.effectPending = true → s.isSuccess = true → s.tipRecorded = false →
      s.hash = some h →
      TipStep postId s
        { s with calls := s.calls ++ [⟨postId, h⟩], effectPending := false }
  | effectNoop (s : TipFlowState) :
      s.effectPending = true →
      (s.isSuccess = false ∨ s.tipRecorded = true) →
      TipStep postId s { s with effectPending := false }

inductive TipReachable (postId : String) : TipFlowState → Prop
  | init : TipReachable postId tipInit
  | step {s t : TipFlowState} :
      TipReachable postId s → TipStep postId s t → TipReachable postId t

theorem tipFlow_invariant (postId : String) (s : TipFlowState)
    (h : TipReachable postId s) :
    (s.calls ≠ [] → s.isSuccess = true ∧ s.hash ≠ none ∧
      (s.tipRecorded = true ∨ s.effectPending = false)) ∧
    s.calls.length ≤ 1 ∧
    (s.tipRecorded = true → s.isSuccess = true) ∧
    (s.isSuccess = true → s.hash ≠ none) := by
  induction h with
  | init => simp [tipInit]
  | @step s t hr hstep ih =>
    obtain ⟨ih1, ih2, ih3, ih4⟩ := ih
    cases hstep with
    | sendTip h hopen hnone =>
      refine ⟨fun hc => ?_, ih2, ih3, fun _ => by simp⟩
      obtain ⟨_, hh, _⟩ := ih1 hc
      exact absurd hnone hh
    | confirm h hh hns =>
      refine ⟨fun hc => ?_, ih2, fun _ => rfl, fun _ => by simp [hh]⟩
      exact absurd (ih1 hc).1 (by simp [hns])
    | close hopen => exact ⟨ih1, ih2, ih3, ih4⟩
    | reopen hopen => exact ⟨ih1, ih2, ih3, ih4⟩
    | effectOk h hp hs hrec hh =>
      have hempty : s.calls = [] := by
        by_contra hc
        rcases (ih1 hc).2.2 with h1 | h1
        · exact absurd h1 (by simp [hrec])
        · exact absurd h1 (by simp [hp])
      refine ⟨fun _ => ⟨hs, by simp [hh], Or.inl rfl⟩, ?_, fun _ => hs, fun _ => by simp [hh]⟩
      simp [hempty]
    | effectFail h hp hs hrec hh =>
      have hempty : s.calls = [] := by
        by_contra hc
        rcases (ih1 hc).2.2 with h1 | h1
        · exact absurd h1 (by simp [hrec])
        · exact absurd h1 (by simp [hp])
      refine ⟨fun _ => ⟨hs, by simp [hh], Or.inr rfl⟩, ?_, ih3, fun _ => by simp [hh]⟩
      simp [hempty]
    | effectNoop hp hguard =>
      refine ⟨fun hc => ⟨(ih1 hc).1, (ih1 hc).2.1, Or.inr rfl⟩, ih2, ih3, ih4⟩

/-- C6 fails as stated on its "closing before confirmation" clause,
and the rest survives in amended form: in every reachable state of a
modal instance, a record-tip call implies the transfer was confirmed,
at most one record-tip call is ever issued, recording implies
confirmation, and a run in which no transfer was ever submitted has
issued no call.  (Closing the modal, however, does not prevent the
call: see the counterexample.) -/
theorem C6_record_after_confirm (postId : String) (s : TipFlowState)
    (h : TipReachable postId s) :
    (s.calls ≠ [] → s.isSuccess = true) ∧
    s.calls.length ≤ 1 ∧
    (s.tipRecorded = true → s.isSuccess = true) ∧
    (s.hash = none → s.calls = []) := by
  obtain ⟨h1, h2, h3, h4⟩ := tipFlow_invariant postId s h
  refine ⟨fun hc => (h1 hc).1, h2, h3, fun hn => ?_⟩
  by_contra hc
  exact absurd hn (h1 hc).2.1

theorem C6_record_after_confirm_witness :
    (tipInit.calls ≠ [] → tipInit.isSuccess = true) ∧
    tipInit.calls.length ≤ 1 ∧
    (tipInit.tipRecorded = true → tipInit.isSuccess = true) ∧
    (tipInit.hash = none → tipInit.calls = []) :=
  C6_record_after_confirm "post1" tipInit TipReachable.init

/-- C6's last clause is false on the code: the component stays
mounted when the modal is closed, so a transfer submitted and then
abandoned (overlay click while pending) is still watched, and on
confirmation the record-tip call is issued anyway.  Concrete run:
send → close (unconfirmed) → confirm → effect fires, one call. -/
theorem C6_close_counterexample :
    TipStep "post1" ⟨true, none, false, false, false, []⟩
      ⟨true, some "0xh", false, false, true, []⟩ ∧
    TipStep "post1" ⟨true, some "0xh", false, false, true, []⟩
      ⟨false, some "0xh", false, false, true, []⟩ ∧
    TipStep "post1" ⟨false, some "0xh", false, false, true, []⟩
      ⟨false, some "0xh", true, false, true, []⟩ ∧
    TipStep "post1" ⟨false, some "0xh", true, false, true, []⟩
      ⟨false, some "0xh", true, true, true, [⟨"post1", "0xh"⟩]⟩ ∧
    (⟨false, some "0xh", false, false, true, []⟩ : TipFlowState).isOpen = false ∧
    (⟨false, some "0xh", false, false, true, []⟩ : TipFlowState).isSuccess = false ∧
    (⟨false, some "0xh", true, true, true, [⟨"post1", "0xh"⟩]⟩ : TipFlowState).calls ≠ [] :=
  ⟨TipStep.sendTip ⟨true, none, false, false, false, []⟩ "0xh" rfl rfl,
   TipStep.close ⟨true, some "0xh", false, false, true, []⟩ rfl,
   TipStep.confirm ⟨false, some "0xh", false, false, true, []⟩ "0xh" rfl rfl,
   TipStep.effectOk ⟨false, some "0xh", true, false, true, []⟩ "0xh" rfl rfl rfl rfl,
   rfl, rfl, by simp⟩

end Hive
